import Mathlib

/-!
Verification of the row-generation and batched-insertion engine of
`random-data-load` (package `generate`, file `generate.go`).

The Go code is shallowly embedded: pure functions become Lean functions,
the external world (database execution, the dry-run output sink, the
notify-channel receiver, the sampler lookups against referenced tables)
becomes an oracle record `Env`, and the side effects of a run (statements
executed, sink writes, channel operations, progress notifications, logged
errors) become an explicit event trace.  Go `int64` values are modelled as
`Int` (none of the arithmetic in this code can overflow 64 bits for the
inputs considered), Go maps of strings as association lists whose read
yields the zero value `""` for a missing key, and Go's truncated integer
division as `Int.tdiv`.
-/

namespace RDL

/-- One column of a table, as supplied by the schema collaborator
(`db.Field`; the `db` package is repository code outside the verified
core).  `sql.NullInt64` bounds are flattened to `Int`. -/
structure Field where
  ColumnName : String
  DataType : String
  IsNullable : Bool
  CharacterMaximumLength : Int
  NumericPrecision : Int
  NumericScale : Int
  SetEnumVals : List String
deriving DecidableEq

/-- A foreign-key constraint (`db.Constraint`): the referenced table's
identity and its ordered referenced column names. -/
structure Constraint where
  ReferencedFields : List String
  ReferencedTableSchema : String
  ReferencedTableName : String
deriving DecidableEq

/-- Table metadata (`db.Table`).  `fieldsToGen` and `fieldsToSample` are
the results of the collaborator methods `FieldsToGenerate()` and
`FieldsToSample()`. -/
structure Table where
  Schema : String
  Name : String
  fieldsToGen : List Field
  fieldsToSample : List Field
  Constraints : List Constraint
deriving DecidableEq

/-- A generated cell value before rendering.  The value constructors
(`NewRandomIntRange`, `NewRandomInt`, ...) live in a repository file that
is not part of the verified core; here a `Getter` records which
constructor was applied with which arguments, exactly as the dispatch in
`generateFieldsRow` applies them. -/
inductive Getter where
  | randomIntRange (col : String) (lo hi : Int) (nullable : Bool)
  | randomInt (col : String) (maxV : Int) (nullable : Bool)
  | randomDecimal (col : String) (numPrecision numScale : Int) (nullable : Bool)
  | randomString (col : String) (maxLen : Int) (nullable : Bool)
  | randomDate (col : String) (nullable : Bool)
  | randomDateTime (col : String) (nullable : Bool)
  | randomTime (nullable : Bool)
  | randomEnum (vals : List String) (nullable : Bool)
  | randomBinary (col : String) (maxLen : Int) (nullable : Bool)
deriving DecidableEq

/-- The `maxValues` map of `generate.go`, as an association list. -/
def maxValues : List (String × Int) :=
  [("tinyint", 0xF),
   ("smallint", 0xFF),
   ("mediumint", 0x7FFFF),
   ("int", 0x7FFFFFFF),
   ("integer", 0x7FFFFFFF),
   ("float", 0x7FFFFFFF),
   ("decimal", 0x7FFFFFFF),
   ("double", 0x7FFFFFFF),
   ("bigint", 0x7FFFFFFFFFFFFFFF)]

/-- The body of the `switch field.DataType` dispatch in
`generateFieldsRow`.  A multi-value Go `case` is membership in the list of
its labels; the `default` branch logs and produces no value (`none`, the
nil `Getter`).  `currentYear` stands for `time.Now().Year()`. -/
def generateFieldValue (currentYear : Int) (field : Field) : Option Getter :=
  if field.DataType ∈ ["tinyint", "bit", "bool", "boolean"] then
    some (.randomIntRange field.ColumnName 0 1 field.IsNullable)
  else if field.DataType ∈ ["smallint", "mediumint", "int", "integer", "bigint"] then
    some (.randomInt field.ColumnName
      ((maxValues.lookup field.DataType).getD ((maxValues.lookup "bigint").getD 0))
      field.IsNullable)
  else if field.DataType ∈ ["float", "decimal", "double", "numeric"] then
    some (.randomDecimal field.ColumnName field.NumericPrecision field.NumericScale
      field.IsNullable)
  else if field.DataType ∈ ["char", "varchar"] then
    some (.randomString field.ColumnName field.CharacterMaximumLength field.IsNullable)
  else if field.DataType ∈ ["date"] then
    some (.randomDate field.ColumnName field.IsNullable)
  else if field.DataType ∈ ["datetime", "timestamp"] then
    some (.randomDateTime field.ColumnName field.IsNullable)
  else if field.DataType ∈ ["tinyblob", "tinytext", "blob", "text", "mediumtext",
      "mediumblob", "longblob", "longtext"] then
    some (.randomString field.ColumnName field.CharacterMaximumLength field.IsNullable)
  else if field.DataType ∈ ["time"] then
    some (.randomTime field.IsNullable)
  else if field.DataType ∈ ["year"] then
    some (.randomIntRange field.ColumnName (currentYear - 1) currentYear field.IsNullable)
  else if field.DataType ∈ ["enum", "set"] then
    some (.randomEnum field.SetEnumVals field.IsNullable)
  else if field.DataType ∈ ["binary", "varbinary"] then
    some (.randomBinary field.ColumnName field.CharacterMaximumLength field.IsNullable)
  else
    none

/-- All data type names recognised by the `switch` in `generateFieldsRow`. -/
def supportedTypes : List String :=
  ["tinyint", "bit", "bool", "boolean",
   "smallint", "mediumint", "int", "integer", "bigint",
   "float", "decimal", "double", "numeric",
   "char", "varchar",
   "date", "datetime", "timestamp",
   "tinyblob", "tinytext", "blob", "text", "mediumtext", "mediumblob",
   "longblob", "longtext",
   "time", "year", "enum", "set", "binary", "varbinary"]

/-- `generateFieldsRow` fills the generate-column slice of one row: one
dispatch per column.  In `genQuery` the target slice has exactly one cell
per generate-column, so the loop is a map over the fields. -/
def generateFieldsRow (currentYear : Int) (fields : List Field) : List (Option Getter) :=
  fields.map (generateFieldValue currentYear)

/-- Modelled from the spec: the integer value generators
(`NewRandomInt`, `NewRandomIntRange`) are defined in a repository file
that is not under the verified sources.  Per the spec they draw a uniform
integer within the per-type range, or (for a nullable column, with some
probability) an explicit null.  The `seed` argument selects the draw. -/
def Getter.intValue : Getter → Nat → Option Int
  | .randomIntRange _ lo hi nullable, seed =>
      if nullable && seed % 2 == 0 then none
      else some (lo + (seed : Int) % (hi - lo + 1))
  | .randomInt _ maxV nullable, seed =>
      if nullable && seed % 2 == 0 then none
      else some ((seed : Int) % (maxV + 1))
  | _, _ => none

/-- The integer value generated for a column: dispatch, then draw. -/
def genIntValue (currentYear : Int) (field : Field) (seed : Nat) : Option Int :=
  (generateFieldValue currentYear field).bind (fun g => g.intValue seed)

example : genIntValue 2026 ⟨"c", "smallint", false, 0, 0, 0, []⟩ 300 = some 44 := by decide
example : genIntValue 2026 ⟨"c", "bool", false, 0, 0, 0, []⟩ 7 = some 1 := by decide
example : genIntValue 2026 ⟨"c", "geometry", false, 0, 0, 0, []⟩ 7 = none := by decide

/-- The foreign-key link configuration (struct `ForeignKeyLinks`).  The
two Go `map[string]string` fields are association lists. -/
structure ForeignKeyLinks where
  DefaultRelationship : String
  DBRandomOneToMany : List (String × String)
  OneToOne : List (String × String)
deriving DecidableEq

/-- Reading a Go `map[string]string`: a missing key yields the zero
value `""`. -/
def goMapGet (m : List (String × String)) (k : String) : String :=
  (m.lookup k).getD ""

/-- `ForeignKeyLinks.relationship`: resolve the relationship kind for a
(table, referenced table) pair. -/
def relationship (r : ForeignKeyLinks) (tableName refTableName : String) : String :=
  if goMapGet r.OneToOne tableName = refTableName then "1-1"
  else if goMapGet r.DBRandomOneToMany tableName = refTableName then "db-random-1-n"
  else r.DefaultRelationship

/-- Which concrete sampler strategy a chunk uses. -/
inductive SamplerKind where
  | uniform
  | dbRandom
deriving DecidableEq

/-- A constructed sampler.  The sampler implementations
(`NewUniformSample`, `NewDBRandomSample` and their `Sample` methods) are
repository code outside the verified core; the model records which
strategy was built and with which constraint data.  Row cells are
`Option Getter` (a Go `Getter` interface value, nil when absent). -/
structure Sampler where
  kind : SamplerKind
  referencedFields : List String
  schema : String
  table : String
  subSlice : List (List (Option Getter))
deriving DecidableEq

/-- Modelled from the spec: `NewUniformSample` (missing sampler file)
builds the Uniform 1-1 strategy for the given constraint data. -/
def NewUniformSample (fields : List String) (schema table : String)
    (subSlice : List (List (Option Getter))) : Sampler :=
  ⟨.uniform, fields, schema, table, subSlice⟩

/-- Modelled from the spec: `NewDBRandomSample` (missing sampler file)
builds the Random 1-N strategy for the given constraint data. -/
def NewDBRandomSample (fields : List String) (schema table : String)
    (subSlice : List (List (Option Getter))) : Sampler :=
  ⟨.dbRandom, fields, schema, table, subSlice⟩

/-- `createSamplerFromForeignkeyLinks`: the `switch fklink` with its
fall-through to `NewDBRandomSample` after the switch. -/
def createSamplerFromForeignkeyLinks (fklink : String) (c : Constraint)
    (subSlice : List (List (Option Getter))) : Sampler :=
  if fklink = "1-1" then
    NewUniformSample c.ReferencedFields c.ReferencedTableSchema c.ReferencedTableName subSlice
  else if fklink = "db-random-1-n" then
    NewDBRandomSample c.ReferencedFields c.ReferencedTableSchema c.ReferencedTableName subSlice
  else
    NewDBRandomSample c.ReferencedFields c.ReferencedTableSchema c.ReferencedTableName subSlice

/-- The observable side effects of a run: statements reaching the
database or the dry-run sink, channel operations, progress
notifications, and logged sampling errors. -/
inductive Event where
  | write (s : String)
  | exec (s : String)
  | chanClosed (c : Nat)
  | chanCreated (c : Nat)
  | sent (c : Nat) (n : Int)
  | dropped (c : Nat) (n : Int)
  | logSampleErr (e : String)
deriving DecidableEq

/-- The external world an `Insert` interacts with, as oracles indexed by
the statement number `k` (and, for sampling, the constraint number `j`
and row number `i`):
`writeErr` — error of the dry-run sink write for statement `k`;
`execRes` — rows-affected or error of executing statement `k`;
`ready` — whether a notify-channel receiver is ready at notification `k`;
`sampleErr` — error of `Sample()` for constraint `j` of statement `k`
(modelled from the spec: the samplers are repository code outside the
verified sources, and either strategy queries the referenced table and
can fail with a lookup error);
`sampleVal` — the values `Sample()` writes into its sub-slice on success;
`rowString` — `InsertValues.String()`, the row-rendering collaborator;
`insertHeader` — the rendered `fmt.Sprintf(db.InsertTemplate(), ...)`
statement header for the table;
`currentYear` — `time.Now().Year()`. -/
structure Env where
  writeErr : Nat → Option String
  execRes : Nat → Except String Int
  ready : Nat → Bool
  sampleErr : Nat → Nat → Option String
  sampleVal : Nat → Nat → Nat → Nat → Getter
  rowString : List (Option Getter) → String
  insertHeader : String
  currentYear : Int

/-- The `Insert` receiver struct: its table, foreign-key links and the
(optional) notify channel, identified by a numeric id. -/
structure InsertInst where
  table : Table
  fklinks : ForeignKeyLinks
  notifyChan : Option Nat
deriving DecidableEq

/-- Overwrite the cells of one row in the index interval
`[start, start+len)` with sampler-provided values; `j` is the index of
the head cell.  This is what `Sample()` writing through the sub-slice
`values[i][colIdx : colIdx+len(constraint.ReferencedFields)]` does to
the underlying row. -/
def writeCells (vals : Nat → Getter) (start len : Nat) :
    List (Option Getter) → Nat → List (Option Getter)
  | [], _ => []
  | c :: cs, j =>
      (if start ≤ j ∧ j < start + len then some (vals (j - start)) else c) ::
        writeCells vals start len cs (j + 1)

/-- `writeCells` starting from the head of the row. -/
def writeRange (vals : Nat → Getter) (start len : Nat) (row : List (Option Getter)) :
    List (Option Getter) :=
  writeCells vals start len row 0

/-- Apply one constraint's sampler writes to every row; `i` is the index
of the head row. -/
def sampleWriteRows (env : Env) (k j : Nat) (colIdx len : Nat) :
    List (List (Option Getter)) → Nat → List (List (Option Getter))
  | [], _ => []
  | r :: rs, i =>
      writeRange (env.sampleVal k j i) colIdx len r ::
        sampleWriteRows env k j colIdx len rs (i + 1)

/-- The sub-slice `values[i][colIdx : colIdx+len]` across all rows, as
handed to the sampler constructor. -/
def subSliceOf (values : List (List (Option Getter))) (colIdx len : Nat) :
    List (List (Option Getter)) :=
  values.map (fun r => (r.drop colIdx).take len)

/-- The loop body of `sampleFieldsTable`: for each constraint, build the
sub-slice, resolve the strategy, run `Sample()` (its outcome is the
`sampleErr`/`sampleVal` oracle), wrap any error with the operation name
and stop, otherwise advance `colIdx` by the constraint's referenced-field
count.  `j` counts constraints, `colIdx` is the running column offset. -/
def sampleGo (ins : InsertInst) (env : Env) (k : Nat) :
    List Constraint → Nat → Nat → List (List (Option Getter)) →
      List (List (Option Getter)) × Option String
  | [], _, _, values => (values, none)
  | c :: cs, j, colIdx, values =>
      match (createSamplerFromForeignkeyLinks
          (relationship ins.fklinks ins.table.Name c.ReferencedTableName) c
          (subSliceOf values colIdx c.ReferencedFields.length)).kind, env.sampleErr k j with
      | _, some e => (values, some ("sampleFieldsTable: " ++ e))
      | _, none =>
          sampleGo ins env k cs (j + 1) (colIdx + c.ReferencedFields.length)
            (sampleWriteRows env k j colIdx c.ReferencedFields.length values 0)

/-- `sampleFieldsTable`: run the constraint loop from column offset 0. -/
def sampleFieldsTable (ins : InsertInst) (env : Env) (k : Nat)
    (values : List (List (Option Getter))) :
    List (List (Option Getter)) × Option String :=
  sampleGo ins env k ins.table.Constraints 0 0 values

/-- The generate-column slice of a row, as written by the generation
goroutine (started only when there is at least one generate-column;
otherwise the freshly allocated cells stay nil). -/
def genRow (ins : InsertInst) (env : Env) : List (Option Getter) :=
  if ins.table.fieldsToGen.length ≠ 0 then
    generateFieldsRow env.currentYear ins.table.fieldsToGen
  else
    List.replicate ins.table.fieldsToGen.length (none : Option Getter)

/-- The freshly allocated sample-column region: `count` rows of nil
cells, one per sample-column. -/
def initialRegion (ins : InsertInst) (count : Nat) : List (List (Option Getter)) :=
  List.replicate count (List.replicate ins.table.fieldsToSample.length (none : Option Getter))

/-- The sample-column region after the sampling goroutine (started only
when there is at least one sample-column), together with the error it
logs, if any. -/
def sampledRegion (ins : InsertInst) (env : Env) (k : Nat) (count : Nat) :
    List (List (Option Getter)) × Option String :=
  if ins.table.fieldsToSample.length ≠ 0 then
    sampleFieldsTable ins env k (initialRegion ins count)
  else
    (initialRegion ins count, none)

/-- The per-chunk row buffer after both phases have joined: each row is
its generate-column cells followed by its sample-column cells.  Also
returns the sampling error the chunk logged, if any. -/
def chunkBuild (ins : InsertInst) (env : Env) (k : Nat) (count : Int) :
    List (List (Option Getter)) × Option String :=
  ((sampledRegion ins env k count.toNat).1.map (fun r => genRow ins env ++ r),
   (sampledRegion ins env k count.toNat).2)

/-- The row-rendering loop of `genQuery`: write each non-nil row's
string, followed by a comma whenever the row's index is not the last
index of the buffer; `i` is the index of the head element, `total` the
buffer length. -/
def renderRowsAux (total : Nat) : List (Option String) → Nat → String
  | [], _ => ""
  | none :: vs, i => renderRowsAux total vs (i + 1)
  | some s :: vs, i =>
      s ++ (if i ≠ total - 1 then "," else "") ++ renderRowsAux total vs (i + 1)

/-- Render a buffer of (possibly nil) row strings. -/
def renderRows (values : List (Option String)) : String :=
  renderRowsAux values.length values 0

/-- `genQuery`: for `count < 1` return the nil pointer; otherwise build
the buffer, run both phases, log (not return) any sampling error, and
render the header followed by the rows.  The second component is the
chunk's logged events. -/
def genQuery (ins : InsertInst) (env : Env) (k : Nat) (count : Int) :
    Option String × List Event :=
  if count < 1 then (none, [])
  else
    (some (env.insertHeader ++
        renderRows (((chunkBuild ins env k count).1.map some).map (Option.map env.rowString))),
     match (chunkBuild ins env k count).2 with
     | some e => [.logSampleErr e]
     | none => [])

/-- The outcome of an `insert` call or of a whole run: rows reported,
error returned, sizes of the statements actually issued, and the event
trace. -/
structure StepOut where
  rows : Int
  err : Option String
  stmts : List Int
  events : List Event
deriving DecidableEq

/-- `Insert.insert`: a no-op for `count < 1`; otherwise build the
statement and either write it (plus a newline) to the sink (dry run,
reporting `count` rows on success) or execute it (reporting the driver's
rows-affected).  A failed statement reports 0 rows together with the
error. -/
def insert (ins : InsertInst) (env : Env) (k : Nat) (count : Int) (dryRun : Bool) : StepOut :=
  if count < 1 then ⟨0, none, [], []⟩
  else if dryRun then
    match env.writeErr k with
    | some e =>
        ⟨0, some e, [count],
          (genQuery ins env k count).2 ++ [.write ((genQuery ins env k count).1.getD "" ++ "\n")]⟩
    | none =>
        ⟨count, none, [count],
          (genQuery ins env k count).2 ++ [.write ((genQuery ins env k count).1.getD "" ++ "\n")]⟩
  else
    match env.execRes k with
    | .error e =>
        ⟨0, some e, [count],
          (genQuery ins env k count).2 ++ [.exec ((genQuery ins env k count).1.getD "")]⟩
    | .ok ra =>
        ⟨ra, none, [count],
          (genQuery ins env k count).2 ++ [.exec ((genQuery ins env k count).1.getD "")]⟩

/-- `Insert.notify`: a non-blocking send on the notify channel — with no
channel nothing happens, with a ready receiver the count is delivered,
otherwise the `select`'s `default` drops it. -/
def notify (ins : InsertInst) (env : Env) (k : Nat) (n : Int) : List Event :=
  match ins.notifyChan with
  | none => []
  | some c => if env.ready k then [.sent c n] else [.dropped c n]

/-- The deferred `close(in.notifyChan)` a run installs when a channel
exists at entry. -/
def closeEvents (ins : InsertInst) : List Event :=
  match ins.notifyChan with
  | some c => [.chanClosed c]
  | none => []

/-- `Insert.NotifyChan`: close any previous channel, then create and
return a fresh one.  `nextId` is the next fresh channel id; the result is
the updated receiver, the next fresh id, the returned channel and the
channel events. -/
def NotifyChan (ins : InsertInst) (nextId : Nat) : InsertInst × Nat × Nat × List Event :=
  match ins.notifyChan with
  | some c =>
      ({ ins with notifyChan := some nextId }, nextId + 1, nextId,
        [.chanClosed c, .chanCreated nextId])
  | none =>
      ({ ins with notifyChan := some nextId }, nextId + 1, nextId, [.chanCreated nextId])

/-- The `for i < completeInserts` loop of `run`: each iteration inserts
`bulksize` rows as statement `k`, accumulates the reported rows, returns
immediately on error, and otherwise notifies progress.  `fuel` is the
number of remaining iterations. -/
def runFullLoop (ins : InsertInst) (env : Env) (dryRun : Bool) (bulksize : Int) :
    Nat → Nat → StepOut
  | 0, _ => ⟨0, none, [], []⟩
  | fuel + 1, k =>
      match (insert ins env k bulksize dryRun).err with
      | some e =>
          ⟨(insert ins env k bulksize dryRun).rows, some e,
            (insert ins env k bulksize dryRun).stmts, (insert ins env k bulksize dryRun).events⟩
      | none =>
          ⟨(insert ins env k bulksize dryRun).rows +
              (runFullLoop ins env dryRun bulksize fuel (k + 1)).rows,
            (runFullLoop ins env dryRun bulksize fuel (k + 1)).err,
            (insert ins env k bulksize dryRun).stmts ++
              (runFullLoop ins env dryRun bulksize fuel (k + 1)).stmts,
            (insert ins env k bulksize dryRun).events ++
              notify ins env k (insert ins env k bulksize dryRun).rows ++
              (runFullLoop ins env dryRun bulksize fuel (k + 1)).events⟩

/-- `Insert.run`: `completeInserts = count / bulksize` (Go truncated
division), `remainder = count − completeInserts*bulksize`; run the full
chunks, then — unless the loop returned early on an error — the
remainder chunk (notified even when it fails), and finally fire the
deferred channel close on every path. -/
def run (ins : InsertInst) (env : Env) (count bulksize : Int) (dryRun : Bool) : StepOut :=
  match (runFullLoop ins env dryRun bulksize (Int.tdiv count bulksize).toNat 0).err with
  | some e =>
      ⟨(runFullLoop ins env dryRun bulksize (Int.tdiv count bulksize).toNat 0).rows, some e,
        (runFullLoop ins env dryRun bulksize (Int.tdiv count bulksize).toNat 0).stmts,
        (runFullLoop ins env dryRun bulksize (Int.tdiv count bulksize).toNat 0).events ++
          closeEvents ins⟩
  | none =>
      ⟨(runFullLoop ins env dryRun bulksize (Int.tdiv count bulksize).toNat 0).rows +
          (insert ins env (Int.tdiv count bulksize).toNat
            (count - Int.tdiv count bulksize * bulksize) dryRun).rows,
        (insert ins env (Int.tdiv count bulksize).toNat
          (count - Int.tdiv count bulksize * bulksize) dryRun).err,
        (runFullLoop ins env dryRun bulksize (Int.tdiv count bulksize).toNat 0).stmts ++
          (insert ins env (Int.tdiv count bulksize).toNat
            (count - Int.tdiv count bulksize * bulksize) dryRun).stmts,
        (runFullLoop ins env dryRun bulksize (Int.tdiv count bulksize).toNat 0).events ++
          (insert ins env (Int.tdiv count bulksize).toNat
            (count - Int.tdiv count bulksize * bulksize) dryRun).events ++
          notify ins env (Int.tdiv count bulksize).toNat
            (insert ins env (Int.tdiv count bulksize).toNat
              (count - Int.tdiv count bulksize * bulksize) dryRun).rows ++
          closeEvents ins⟩

/-- `Insert.Run`: real execution. -/
def Run (ins : InsertInst) (env : Env) (count bulksize : Int) : StepOut :=
  run ins env count bulksize false

/-- `Insert.DryRun`: write the statements to the sink instead. -/
def DryRun (ins : InsertInst) (env : Env) (count bulksize : Int) : StepOut :=
  run ins env count bulksize true

/-- A two-column test table with one foreign key, used for concrete
witnesses. -/
def tWit : Table :=
  ⟨"s", "t",
   [⟨"a", "int", false, 0, 0, 0, []⟩],
   [⟨"b", "int", false, 0, 0, 0, []⟩],
   [⟨["id"], "s", "parent"⟩]⟩

/-- A benign world: writes succeed, every statement commits 4 rows, no
receiver is ever ready, sampling succeeds. -/
def envWit : Env :=
  ⟨fun _ => none, fun _ => .ok 4, fun _ => false, fun _ _ => none,
   fun _ _ _ _ => .randomInt "id" 3 false, fun _ => "R", "H", 2026⟩

/-- The test receiver, without a notify channel. -/
def insWit : InsertInst := ⟨tWit, ⟨"random-1-n", [], []⟩, none⟩

example : (DryRun insWit envWit 11 4).stmts = [4, 4, 3] := by decide
example : (DryRun insWit envWit 11 4).rows = 11 := by decide
example : (DryRun insWit envWit 11 4).err = none := by decide
example : (Run insWit envWit 11 4).rows = 12 := by decide
example : (Run insWit envWit 0 4).stmts = [] := by decide
example : (Run insWit envWit (-5) 4).stmts = [] := by decide
example : (Run insWit envWit (-5) 4).rows = 0 := by decide
example : (genQuery insWit envWit 0 2).1 = some "HR,R" := by decide

/-- Statement `k` succeeds against the world: the dry-run sink write
returns no error, or execution returns a rows-affected count. -/
def stmtOk (env : Env) (dryRun : Bool) (k : Nat) : Prop :=
  match dryRun with
  | true => env.writeErr k = none
  | false => ∃ r, env.execRes k = Except.ok r

/-- Statement `k` fails against the world with error `e`. -/
def stmtFails (env : Env) (dryRun : Bool) (k : Nat) (e : String) : Prop :=
  match dryRun with
  | true => env.writeErr k = some e
  | false => env.execRes k = Except.error e

/-- The sizes of the statements a run plans: `completeInserts` full
chunks of `bulksize` rows, then the remainder chunk when it has at least
one row. -/
def plannedStatements (count bulksize : Int) : List Int :=
  List.replicate (Int.tdiv count bulksize).toNat bulksize ++
    (if count - Int.tdiv count bulksize * bulksize < 1 then []
     else [count - Int.tdiv count bulksize * bulksize])

/-- The size of the `j`-th planned statement. -/
def stmtSizeAt (count bulksize : Int) (j : Nat) : Int :=
  (plannedStatements count bulksize).getD j 0

/-- A world in which the second statement fails. -/
def envFail : Env :=
  ⟨fun _ => none, fun k => if k == 1 then .error "boom" else .ok 4, fun _ => false,
   fun _ _ => none, fun _ _ _ _ => .randomInt "id" 3 false, fun _ => "R", "H", 2026⟩

/-- `env` with sampling always succeeding, leaving the rest of the world
unchanged. -/
def benignSampling (env : Env) : Env :=
  { env with sampleErr := fun _ _ => none }

/-- A world in which every `Sample()` call fails with "boom". -/
def envSampleFail : Env :=
  ⟨fun _ => none, fun _ => .ok 4, fun _ => false, fun _ _ => some "boom",
   fun _ _ _ _ => .randomInt "id" 3 false, fun _ => "R", "H", 2026⟩

/-- The sampler kind actually used for a (table, referenced table) pair:
`relationship` followed by `createSamplerFromForeignkeyLinks`. -/
def resolvedSamplerKind (r : ForeignKeyLinks) (tableName refTableName : String) : SamplerKind :=
  (createSamplerFromForeignkeyLinks (relationship r tableName refTableName)
    ⟨[], "", refTableName⟩ []).kind

/-- The resolution precedence exactly as the specification words it: an
explicit 1-1 override entry for the pair selects Uniform 1-1, otherwise
an explicit random-1-N override entry selects Random 1-N, otherwise the
process-wide default kind decides, falling back to Random 1-N when the
resolved kind is not recognised. -/
def specResolve (r : ForeignKeyLinks) (tableName refTableName : String) : SamplerKind :=
  if r.OneToOne.lookup tableName = some refTableName then .uniform
  else if r.DBRandomOneToMany.lookup tableName = some refTableName then .dbRandom
  else if r.DefaultRelationship = "1-1" then .uniform
  else if r.DefaultRelationship = "db-random-1-n" then .dbRandom
  else .dbRandom

/-- A link configuration with no overrides and the default kind. -/
def fklNoOverrides : ForeignKeyLinks := ⟨"random-1-n", [], []⟩

/-- The test receiver with a requested notify channel. -/
def insWitChan : InsertInst := ⟨tWit, ⟨"random-1-n", [], []⟩, some 0⟩

/-- Rows joined with exactly one separating comma between consecutive
rows and none after the last row — the rendering shape the specification
asserts. -/
def joinComma : List String → String
  | [] => ""
  | [s] => s
  | s :: rest => s ++ "," ++ joinComma rest

/-- The running `colIdx` of the `sampleFieldsTable` loop when it reaches
constraint `j`: the sum of the referenced-field counts of the
constraints before it. -/
def subViewStart : List Constraint → Nat → Nat
  | _, 0 => 0
  | [], _ + 1 => 0
  | c :: cs, j + 1 => c.ReferencedFields.length + subViewStart cs j

/-- The width of constraint `j`'s sub-view: its referenced-field count. -/
def subViewLen (cs : List Constraint) (j : Nat) : Nat :=
  ((cs.getD j ⟨[], "", ""⟩).ReferencedFields).length

/-- The cell of row `i` at column `idx` of a row buffer (nested lookup,
`none` when out of range). -/
def cellAt (rows : List (List (Option Getter))) (i idx : Nat) :
    Option (Option (Option Getter)) :=
  (rows[i]?).map (fun r => r[idx]?)

/-- A two-constraint table for the C9 witness. -/
def csWit : List Constraint := [⟨["a", "b"], "s", "p"⟩, ⟨["c"], "s", "q"⟩]

theorem insert_of_lt (ins : InsertInst) (env : Env) (k : Nat) (count : Int) (dry : Bool)
    (h : count < 1) : insert ins env k count dry = ⟨0, none, [], []⟩ := by
  simp [insert, h]

theorem insert_stmts (ins : InsertInst) (env : Env) (k : Nat) (count : Int) (dry : Bool) :
    (insert ins env k count dry).stmts = if count < 1 then [] else [count] := by
  by_cases h : count < 1
  · simp [insert, h]
  · cases dry
    · cases henv : env.execRes k <;> simp [insert, h, henv]
    · cases henv : env.writeErr k <;> simp [insert, h, henv]

theorem insert_err_ok (ins : InsertInst) (env : Env) (k : Nat) (count : Int) (dry : Bool)
    (hok : stmtOk env dry k) : (insert ins env k count dry).err = none := by
  by_cases h : count < 1
  · simp [insert, h]
  · cases dry
    · obtain ⟨r, hr⟩ := hok
      simp [insert, h, hr]
    · have hw : env.writeErr k = none := hok
      simp [insert, h, hw]

theorem insert_err_fail (ins : InsertInst) (env : Env) (k : Nat) (count : Int) (dry : Bool)
    (e : String) (h : ¬count < 1) (hf : stmtFails env dry k e) :
    (insert ins env k count dry).err = some e := by
  cases dry
  · have hw : env.execRes k = Except.error e := hf
    simp [insert, h, hw]
  · have hw : env.writeErr k = some e := hf
    simp [insert, h, hw]

theorem insert_rows_fail (ins : InsertInst) (env : Env) (k : Nat) (count : Int) (dry : Bool)
    (e : String) (hf : stmtFails env dry k e) : (insert ins env k count dry).rows = 0 := by
  by_cases h : count < 1
  · simp [insert, h]
  · cases dry
    · have hw : env.execRes k = Except.error e := hf
      simp [insert, h, hw]
    · have hw : env.writeErr k = some e := hf
      simp [insert, h, hw]

theorem insert_rows_dry (ins : InsertInst) (env : Env) (k : Nat) (count : Int)
    (h : ¬count < 1) (hw : env.writeErr k = none) :
    (insert ins env k count true).rows = count := by
  simp [insert, h, hw]

theorem tdiv_toNat_of_nonneg (count bulksize : Int) (hc : 0 ≤ count) (hb : 1 ≤ bulksize) :
    Int.tdiv count bulksize = ((count.toNat / bulksize.toNat : Nat) : Int) := by
  have h1 : count = ((count.toNat : Nat) : Int) := (Int.toNat_of_nonneg hc).symm
  have h2 : bulksize = ((bulksize.toNat : Nat) : Int) :=
    (Int.toNat_of_nonneg (by omega)).symm
  conv_lhs => rw [h1, h2]
  rw [← Int.ofNat_tdiv]

theorem tdiv_nonpos_of_nonpos (count bulksize : Int) (hc : count ≤ 0) (_hb : 1 ≤ bulksize) :
    Int.tdiv count bulksize ≤ 0 := by
  have h1 : count = -(-count) := by ring
  calc Int.tdiv count bulksize = Int.tdiv (-(-count)) bulksize := by rw [← h1]
    _ = -Int.tdiv (-count) bulksize := Int.neg_tdiv (-count) bulksize
    _ ≤ 0 := by
        have := Int.tdiv_nonneg (a := -count) (b := bulksize) (by omega) (by omega)
        omega

theorem rem_nonpos_of_nonpos (count bulksize : Int) (hc : count ≤ 0) (_hb : 1 ≤ bulksize) :
    count - Int.tdiv count bulksize * bulksize ≤ 0 := by
  have hneg : Int.tdiv count bulksize = -Int.tdiv (-count) bulksize := by
    conv_lhs => rw [show count = -(-count) by ring]
    exact Int.neg_tdiv (-count) bulksize
  have hmod : Int.tmod (-count) bulksize = -count - bulksize * Int.tdiv (-count) bulksize :=
    Int.tmod_def (-count) bulksize
  have hnn : 0 ≤ Int.tmod (-count) bulksize := Int.tmod_nonneg bulksize (by omega)
  have hc2 : Int.tdiv (-count) bulksize * bulksize = bulksize * Int.tdiv (-count) bulksize := by
    ring
  have hc3 : -Int.tdiv (-count) bulksize * bulksize =
      -(Int.tdiv (-count) bulksize * bulksize) := by ring
  rw [hneg]
  omega

theorem runFullLoop_ok (ins : InsertInst) (env : Env) (dry : Bool) (bulksize : Int)
    (hb : ¬bulksize < 1) :
    ∀ fuel k0, (∀ j, j < fuel → stmtOk env dry (k0 + j)) →
      (runFullLoop ins env dry bulksize fuel k0).err = none ∧
      (runFullLoop ins env dry bulksize fuel k0).stmts = List.replicate fuel bulksize ∧
      (runFullLoop ins env dry bulksize fuel k0).rows =
        ∑ j ∈ Finset.range fuel, (insert ins env (k0 + j) bulksize dry).rows := by
  intro fuel
  induction fuel with
  | zero => intro k0 _; simp [runFullLoop]
  | succ n ih =>
    intro k0 hok
    have h0 : stmtOk env dry k0 := by simpa using hok 0 (by omega)
    have herr : (insert ins env k0 bulksize dry).err = none :=
      insert_err_ok ins env k0 bulksize dry h0
    have hrest := ih (k0 + 1) (fun j hj => by
      have h := hok (j + 1) (by omega)
      have he : k0 + (j + 1) = k0 + 1 + j := by omega
      rwa [he] at h)
    simp only [runFullLoop, herr]
    refine ⟨hrest.1, ?_, ?_⟩
    · rw [insert_stmts, if_neg hb, hrest.2.1]
      simp [List.replicate_succ]
    · rw [hrest.2.2, Finset.sum_range_succ']
      have he : ∀ j, k0 + 1 + j = k0 + (j + 1) := by omega
      rw [Finset.sum_congr rfl (fun j _ => by rw [he j])]
      simp only [Nat.add_zero]
      omega

theorem runFullLoop_fail (ins : InsertInst) (env : Env) (dry : Bool) (bulksize : Int)
    (hb : ¬bulksize < 1) :
    ∀ m fuel k0 e, m < fuel → (∀ j, j < m → stmtOk env dry (k0 + j)) →
      stmtFails env dry (k0 + m) e →
      (runFullLoop ins env dry bulksize fuel k0).err = some e ∧
      (runFullLoop ins env dry bulksize fuel k0).stmts = List.replicate (m + 1) bulksize ∧
      (runFullLoop ins env dry bulksize fuel k0).rows =
        ∑ j ∈ Finset.range m, (insert ins env (k0 + j) bulksize dry).rows := by
  intro m
  induction m with
  | zero =>
    intro fuel k0 e hm _ hf
    match fuel, hm with
    | n + 1, _ =>
      have hf0 : stmtFails env dry k0 e := by simpa using hf
      have herr : (insert ins env k0 bulksize dry).err = some e :=
        insert_err_fail ins env k0 bulksize dry e hb hf0
      simp only [runFullLoop, herr]
      refine ⟨trivial, ?_, ?_⟩
      · rw [insert_stmts, if_neg hb]
        simp
      · simp [insert_rows_fail ins env k0 bulksize dry e hf0]
  | succ p ih =>
    intro fuel k0 e hm hok hf
    match fuel, hm with
    | n + 1, _ =>
      have h0 : stmtOk env dry k0 := by simpa using hok 0 (by omega)
      have herr : (insert ins env k0 bulksize dry).err = none :=
        insert_err_ok ins env k0 bulksize dry h0
      have hf1 : stmtFails env dry (k0 + 1 + p) e := by
        have he : k0 + (p + 1) = k0 + 1 + p := by omega
        rwa [he] at hf
      have hrest := ih n (k0 + 1) e (by omega)
        (fun j hj => by
          have h := hok (j + 1) (by omega)
          have he : k0 + (j + 1) = k0 + 1 + j := by omega
          rwa [he] at h) hf1
      simp only [runFullLoop, herr]
      refine ⟨hrest.1, ?_, ?_⟩
      · rw [insert_stmts, if_neg hb, hrest.2.1]
        simp [List.replicate_succ]
      · rw [hrest.2.2, Finset.sum_range_succ']
        have he : ∀ j, k0 + 1 + j = k0 + (j + 1) := by omega
        rw [Finset.sum_congr rfl (fun j _ => by rw [he j])]
        simp only [Nat.add_zero]
        omega

theorem rem_bounds (count bulksize : Int) (hc : 0 ≤ count) (hb : 1 ≤ bulksize) :
    0 ≤ count - Int.tdiv count bulksize * bulksize ∧
      count - Int.tdiv count bulksize * bulksize < bulksize := by
  have hmod : Int.tmod count bulksize = count - bulksize * Int.tdiv count bulksize :=
    Int.tmod_def count bulksize
  have h1 : 0 ≤ Int.tmod count bulksize := Int.tmod_nonneg bulksize hc
  have h2 : Int.tmod count bulksize < bulksize := Int.tmod_lt_of_pos count (by omega)
  have hc2 : Int.tdiv count bulksize * bulksize = bulksize * Int.tdiv count bulksize := by ring
  omega

theorem run_ok (ins : InsertInst) (env : Env) (count bulksize : Int) (dry : Bool)
    (hb : 1 ≤ bulksize) (hok : ∀ k, stmtOk env dry k) :
    (run ins env count bulksize dry).err = none ∧
    (run ins env count bulksize dry).stmts = plannedStatements count bulksize ∧
    (run ins env count bulksize dry).rows =
      (∑ j ∈ Finset.range (Int.tdiv count bulksize).toNat,
          (insert ins env j bulksize dry).rows) +
        (insert ins env (Int.tdiv count bulksize).toNat
          (count - Int.tdiv count bulksize * bulksize) dry).rows := by
  have hb' : ¬bulksize < 1 := by omega
  obtain ⟨hle, hls, hlr⟩ :=
    runFullLoop_ok ins env dry bulksize hb' (Int.tdiv count bulksize).toNat 0
      (fun j _ => by simpa using hok j)
  simp only [run, hle]
  by_cases hrem : count - Int.tdiv count bulksize * bulksize < 1
  · rw [insert_of_lt ins env (Int.tdiv count bulksize).toNat
      (count - Int.tdiv count bulksize * bulksize) dry hrem]
    refine ⟨rfl, ?_, ?_⟩
    · simp [hls, plannedStatements, hrem]
    · simp only [hlr]
      simp
  · refine ⟨insert_err_ok ins env _ _ dry (hok _), ?_, ?_⟩
    · rw [insert_stmts, if_neg hrem, hls]
      simp [plannedStatements, hrem]
    · simp only [hlr]
      simp

/-- C1: for every count and every bulksize ≥ 1, `run(count, bulksize,
dryRun)` issues exactly `floor(count / bulksize)` statements of exactly
`bulksize` rows each, followed by one final statement of
`count − floor(count / bulksize) × bulksize` rows which is skipped when
that remainder is 0; and if `count < 1`, zero rows are produced and no
statement is issued.  (The world is assumed not to fail any statement:
failure behaviour is its own claim.) -/
theorem C1_run_batching (ins : InsertInst) (env : Env) (count bulksize : Int) (dry : Bool)
    (hb : 1 ≤ bulksize) (hok : ∀ k, stmtOk env dry k) :
    (1 ≤ count →
      (run ins env count bulksize dry).stmts =
        List.replicate (count.toNat / bulksize.toNat) bulksize ++
          (if count - ((count.toNat / bulksize.toNat : Nat) : Int) * bulksize = 0 then []
           else [count - ((count.toNat / bulksize.toNat : Nat) : Int) * bulksize])) ∧
    (count < 1 →
      (run ins env count bulksize dry).stmts = [] ∧
      (run ins env count bulksize dry).rows = 0) := by
  obtain ⟨herr, hstmts, hrows⟩ := run_ok ins env count bulksize dry hb hok
  constructor
  · intro hc
    have hq : Int.tdiv count bulksize = ((count.toNat / bulksize.toNat : Nat) : Int) :=
      tdiv_toNat_of_nonneg count bulksize (by omega) hb
    have hqq : (Int.tdiv count bulksize).toNat = count.toNat / bulksize.toNat := by
      rw [hq]; exact Int.toNat_ofNat _
    have hrb := rem_bounds count bulksize (by omega) hb
    rw [hq] at hrb
    rw [hstmts, plannedStatements, hqq, hq]
    by_cases h0 : count - ((count.toNat / bulksize.toNat : Nat) : Int) * bulksize = 0
    · rw [if_pos h0, if_pos (by omega)]
    · rw [if_neg h0, if_neg (by omega)]
  · intro hc
    have hq : (Int.tdiv count bulksize).toNat = 0 := by
      have := tdiv_nonpos_of_nonpos count bulksize (by omega) hb
      omega
    have hrem : count - Int.tdiv count bulksize * bulksize < 1 := by
      have := rem_nonpos_of_nonpos count bulksize (by omega) hb
      omega
    constructor
    · rw [hstmts, plannedStatements, hq, if_pos hrem]
      simp
    · rw [hrows, hq,
        insert_of_lt ins env 0 (count - Int.tdiv count bulksize * bulksize) dry hrem]
      simp

/-- Witness for C1 at the spec's own example: 11 rows at bulk size 4
yield statements of sizes 4, 4, 3. -/
theorem C1_run_batching_witness : (run insWit envWit 11 4 false).stmts = [4, 4, 3] := by
  have h :=
    (C1_run_batching insWit envWit 11 4 false (by decide) (fun k => ⟨4, rfl⟩)).1 (by decide)
  rw [h]
  decide

theorem take_replicate_append {α : Type} (b : α) :
    ∀ ci n (tail : List α), n ≤ ci →
      ((List.replicate ci b) ++ tail).take n = List.replicate n b := by
  intro ci
  induction ci with
  | zero => intro n tail h; interval_cases n; simp
  | succ m ih =>
    intro n tail h
    cases n with
    | zero => simp
    | succ p => simp [List.replicate_succ, ih p tail (by omega)]

theorem getD_replicate_append {α : Type} (b d : α) :
    ∀ ci j (tail : List α), j < ci → ((List.replicate ci b) ++ tail).getD j d = b := by
  intro ci
  induction ci with
  | zero => intro j tail h; omega
  | succ m ih =>
    intro j tail h
    cases j with
    | zero => simp [List.replicate_succ]
    | succ p =>
      have hp := ih p tail (by omega)
      simpa [List.replicate_succ] using hp

theorem getD_replicate_append_self {α : Type} (b d r : α) :
    ∀ ci, ((List.replicate ci b) ++ [r]).getD ci d = r := by
  intro ci
  induction ci with
  | zero => simp
  | succ m ih => simp [List.replicate_succ, ih]

theorem plannedStatements_length (count bulksize : Int) :
    (plannedStatements count bulksize).length =
      (Int.tdiv count bulksize).toNat +
        (if count - Int.tdiv count bulksize * bulksize < 1 then 0 else 1) := by
  simp only [plannedStatements]
  split <;> simp

theorem stmtSizeAt_full (count bulksize : Int) (j : Nat)
    (hj : j < (Int.tdiv count bulksize).toNat) : stmtSizeAt count bulksize j = bulksize := by
  simp only [stmtSizeAt, plannedStatements]
  exact getD_replicate_append bulksize 0 _ j _ hj

theorem stmtSizeAt_rem (count bulksize : Int)
    (h : ¬count - Int.tdiv count bulksize * bulksize < 1) :
    stmtSizeAt count bulksize (Int.tdiv count bulksize).toNat =
      count - Int.tdiv count bulksize * bulksize := by
  simp only [stmtSizeAt, plannedStatements, if_neg h]
  exact getD_replicate_append_self bulksize 0 _ _

/-- C3: if the `k`-th planned statement fails (any statement error,
including a dry-run write error), the run stops immediately without
issuing further statements and returns the rows committed by the
statements before the failing one together with a non-nil error; the
failing statement contributes zero rows. -/
theorem C3_partial_failure (ins : InsertInst) (env : Env) (count bulksize : Int) (dry : Bool)
    (k : Nat) (e : String) (hb : 1 ≤ bulksize)
    (hk : k < (plannedStatements count bulksize).length)
    (hok : ∀ j, j < k → stmtOk env dry j)
    (hf : stmtFails env dry k e) :
    (run ins env count bulksize dry).err = some e ∧
    (run ins env count bulksize dry).stmts = (plannedStatements count bulksize).take (k + 1) ∧
    (run ins env count bulksize dry).rows =
      ∑ j ∈ Finset.range k, (insert ins env j (stmtSizeAt count bulksize j) dry).rows ∧
    (insert ins env k (stmtSizeAt count bulksize k) dry).rows = 0 := by
  have hb' : ¬bulksize < 1 := by omega
  have hlen := plannedStatements_length count bulksize
  by_cases hkci : k < (Int.tdiv count bulksize).toNat
  · obtain ⟨hle, hls, hlr⟩ :=
      runFullLoop_fail ins env dry bulksize hb' k (Int.tdiv count bulksize).toNat 0 e hkci
        (fun j hj => by simpa using hok j hj) (by simpa using hf)
    simp only [run, hle]
    refine ⟨trivial, ?_, ?_, ?_⟩
    · rw [hls, plannedStatements, take_replicate_append bulksize _ (k + 1) _ (by omega)]
    · rw [hlr]
      refine Finset.sum_congr rfl (fun j hj => ?_)
      have hj' : j < k := Finset.mem_range.mp hj
      rw [stmtSizeAt_full count bulksize j (by omega)]
      simp
    · rw [stmtSizeAt_full count bulksize k hkci]
      exact insert_rows_fail ins env k bulksize dry e hf
  · have hrem : ¬count - Int.tdiv count bulksize * bulksize < 1 := by
      by_contra hc
      simp [if_pos hc] at hlen
      omega
    have hkeq : k = (Int.tdiv count bulksize).toNat := by
      rw [hlen, if_neg hrem] at hk
      omega
    obtain ⟨hle, hls, hlr⟩ :=
      runFullLoop_ok ins env dry bulksize hb' (Int.tdiv count bulksize).toNat 0
        (fun j hj => by
          have := hok j (by omega)
          simpa using this)
    simp only [run, hle]
    have hferr : (insert ins env (Int.tdiv count bulksize).toNat
        (count - Int.tdiv count bulksize * bulksize) dry).err = some e :=
      insert_err_fail ins env _ _ dry e hrem (hkeq ▸ hf)
    refine ⟨hferr, ?_, ?_, ?_⟩
    · rw [hls, insert_stmts, if_neg hrem, plannedStatements, if_neg hrem, hkeq]
      rw [List.take_of_length_le (by simp)]
    · rw [hlr, hkeq]
      have h0 : (insert ins env (Int.tdiv count bulksize).toNat
          (count - Int.tdiv count bulksize * bulksize) dry).rows = 0 :=
        insert_rows_fail ins env _ _ dry e (hkeq ▸ hf)
      rw [h0, add_zero]
      refine Finset.sum_congr rfl (fun j hj => ?_)
      have hj' : j < (Int.tdiv count bulksize).toNat := Finset.mem_range.mp hj
      rw [stmtSizeAt_full count bulksize j hj']
      simp
    · rw [hkeq, stmtSizeAt_rem count bulksize hrem]
      exact insert_rows_fail ins env _ _ dry e (hkeq ▸ hf)


/-- Witness for C3 at the spec's scenario: the second of three planned
statements fails, the run returns exactly the first statement's 4 rows,
a non-nil error, and only two statements were issued. -/
theorem C3_partial_failure_witness :
    (run insWit envFail 11 4 false).err = some "boom" ∧
    (run insWit envFail 11 4 false).rows = 4 ∧
    (run insWit envFail 11 4 false).stmts = [4, 4] := by
  have h := C3_partial_failure insWit envFail 11 4 false 1 "boom" (by decide) (by decide)
    (fun j hj => by interval_cases j; exact ⟨4, rfl⟩) rfl
  refine ⟨h.1, ?_, ?_⟩
  · rw [h.2.2.1]; decide
  · rw [h.2.1]; decide

theorem insert_core_congr (ins : InsertInst) (env env' : Env) (k : Nat) (count : Int)
    (dry : Bool) (hw : env.writeErr = env'.writeErr) (he : env.execRes = env'.execRes) :
    (insert ins env k count dry).rows = (insert ins env' k count dry).rows ∧
    (insert ins env k count dry).err = (insert ins env' k count dry).err ∧
    (insert ins env k count dry).stmts = (insert ins env' k count dry).stmts := by
  by_cases h : count < 1
  · simp [insert, h]
  · cases dry
    · cases henv : env'.execRes k with
      | error e =>
        have henv2 : env.execRes k = Except.error e := by rw [he, henv]
        simp [insert, h, henv, henv2]
      | ok r =>
        have henv2 : env.execRes k = Except.ok r := by rw [he, henv]
        simp [insert, h, henv, henv2]
    · cases henv : env'.writeErr k with
      | none =>
        have henv2 : env.writeErr k = none := by rw [hw, henv]
        simp [insert, h, henv, henv2]
      | some e =>
        have henv2 : env.writeErr k = some e := by rw [hw, henv]
        simp [insert, h, henv, henv2]

theorem runFullLoop_core_congr (ins : InsertInst) (env env' : Env) (dry : Bool)
    (bulksize : Int) (hw : env.writeErr = env'.writeErr) (he : env.execRes = env'.execRes) :
    ∀ fuel k0,
      (runFullLoop ins env dry bulksize fuel k0).rows =
        (runFullLoop ins env' dry bulksize fuel k0).rows ∧
      (runFullLoop ins env dry bulksize fuel k0).err =
        (runFullLoop ins env' dry bulksize fuel k0).err ∧
      (runFullLoop ins env dry bulksize fuel k0).stmts =
        (runFullLoop ins env' dry bulksize fuel k0).stmts := by
  intro fuel
  induction fuel with
  | zero => intro k0; simp [runFullLoop]
  | succ n ih =>
    intro k0
    obtain ⟨hir, hie, his⟩ := insert_core_congr ins env env' k0 bulksize dry hw he
    obtain ⟨ihr, ihe, ihs⟩ := ih (k0 + 1)
    cases henv : (insert ins env' k0 bulksize dry).err with
    | some e =>
      have henv2 : (insert ins env k0 bulksize dry).err = some e := by rw [hie, henv]
      simp [runFullLoop, henv, henv2, hir, his]
    | none =>
      have henv2 : (insert ins env k0 bulksize dry).err = none := by rw [hie, henv]
      simp [runFullLoop, henv, henv2, hir, his, ihr, ihe, ihs]

theorem run_core_congr (ins : InsertInst) (env env' : Env)
    (hw : env.writeErr = env'.writeErr) (he : env.execRes = env'.execRes)
    (count bulksize : Int) (dry : Bool) :
    (run ins env count bulksize dry).rows = (run ins env' count bulksize dry).rows ∧
    (run ins env count bulksize dry).err = (run ins env' count bulksize dry).err ∧
    (run ins env count bulksize dry).stmts = (run ins env' count bulksize dry).stmts := by
  obtain ⟨hlr, hle, hls⟩ :=
    runFullLoop_core_congr ins env env' dry bulksize hw he (Int.tdiv count bulksize).toNat 0
  obtain ⟨hir, hie, his⟩ := insert_core_congr ins env env' (Int.tdiv count bulksize).toNat
    (count - Int.tdiv count bulksize * bulksize) dry hw he
  cases henv : (runFullLoop ins env' dry bulksize (Int.tdiv count bulksize).toNat 0).err with
  | some e =>
    have henv2 : (runFullLoop ins env dry bulksize (Int.tdiv count bulksize).toNat 0).err =
        some e := by rw [hle, henv]
    simp [run, henv, henv2, hlr, hls]
  | none =>
    have henv2 : (runFullLoop ins env dry bulksize (Int.tdiv count bulksize).toNat 0).err =
        none := by rw [hle, henv]
    simp [run, henv, henv2, hlr, hls, hir, hie, his]


theorem sampleGo_fail (ins : InsertInst) (env : Env) (k : Nat) (e : String) :
    ∀ (jf : Nat) (cs : List Constraint) (j0 colIdx : Nat)
      (values : List (List (Option Getter))),
      jf < cs.length → (∀ i, i < jf → env.sampleErr k (j0 + i) = none) →
      env.sampleErr k (j0 + jf) = some e →
      (sampleGo ins env k cs j0 colIdx values).2 = some ("sampleFieldsTable: " ++ e) ∧
      (sampleGo ins env k cs j0 colIdx values).1 =
        (sampleGo ins env k (cs.take jf) j0 colIdx values).1 := by
  intro jf
  induction jf with
  | zero =>
    intro cs j0 colIdx values hlen _ herr
    match cs, hlen with
    | c :: cs', _ =>
      have h0 : env.sampleErr k j0 = some e := by simpa using herr
      simp [sampleGo, h0]
  | succ p ih =>
    intro cs j0 colIdx values hlen hbef herr
    match cs, hlen with
    | c :: cs', hlen' =>
      have h0 : env.sampleErr k j0 = none := by simpa using hbef 0 (by omega)
      have hrest := ih cs' (j0 + 1) (colIdx + c.ReferencedFields.length)
        (sampleWriteRows env k j0 colIdx c.ReferencedFields.length values 0)
        (by simpa using hlen')
        (fun i hi => by
          have h := hbef (i + 1) (by omega)
          have heq : j0 + (i + 1) = j0 + 1 + i := by omega
          rwa [heq] at h)
        (by
          have heq : j0 + (p + 1) = j0 + 1 + p := by omega
          rwa [heq] at herr)
      simp only [List.take_succ_cons, sampleGo, h0]
      exact hrest


/-- Counterexample to C2 as stated: on a table with a foreign key whose
sampler fails, the run still completes all rows and returns a nil error —
the wrapped sampling error is only logged inside the chunk's goroutine,
it is not propagated to the caller of the run and does not halt the
run. -/
theorem C2_sampling_error_not_propagated_cex :
    (run insWit envSampleFail 2 2 true).err = none ∧
    (run insWit envSampleFail 2 2 true).rows = 2 ∧
    Event.logSampleErr "sampleFieldsTable: boom" ∈ (run insWit envSampleFail 2 2 true).events := by
  refine ⟨by decide, by decide, by decide⟩

/-- C2 (amended): a sampler error is wrapped with the operation name
`sampleFieldsTable` and aborts the chunk's sampling phase — constraints
after the failing one are not sampled and there is no row-level retry —
but it is returned only to the sampling goroutine inside `genQuery`,
which logs it; the chunk still renders and executes its statement, and
the run's reported rows, error and statements are exactly those of a run
whose sampling never fails. -/
theorem C2_sampling_error_contained (ins : InsertInst) (env : Env) (k jf : Nat) (e : String)
    (hj : jf < ins.table.Constraints.length)
    (hbef : ∀ i, i < jf → env.sampleErr k i = none)
    (herr : env.sampleErr k jf = some e) :
    (∀ values, (sampleFieldsTable ins env k values).2 =
        some ("sampleFieldsTable: " ++ e)) ∧
    (∀ values, (sampleFieldsTable ins env k values).1 =
        (sampleGo ins env k (ins.table.Constraints.take jf) 0 0 values).1) ∧
    (∀ count : Int, 1 ≤ count → ((genQuery ins env k count).1).isSome = true) ∧
    (∀ (count bulksize : Int) (dry : Bool),
      (run ins env count bulksize dry).rows =
        (run ins (benignSampling env) count bulksize dry).rows ∧
      (run ins env count bulksize dry).err =
        (run ins (benignSampling env) count bulksize dry).err ∧
      (run ins env count bulksize dry).stmts =
        (run ins (benignSampling env) count bulksize dry).stmts) := by
  refine ⟨?_, ?_, ?_, ?_⟩
  · intro values
    exact (sampleGo_fail ins env k e jf ins.table.Constraints 0 0 values hj
      (fun i hi => by simpa using hbef i hi) (by simpa using herr)).1
  · intro values
    exact (sampleGo_fail ins env k e jf ins.table.Constraints 0 0 values hj
      (fun i hi => by simpa using hbef i hi) (by simpa using herr)).2
  · intro count hc
    simp [genQuery, show ¬count < 1 by omega]
  · intro count bulksize dry
    exact run_core_congr ins env (benignSampling env) rfl rfl count bulksize dry

/-- Witness for C2 (amended) on the concrete failing world: the wrapped
error is produced by `sampleFieldsTable`, and the run's rows match the
benign-sampling run's rows. -/
theorem C2_sampling_error_contained_witness :
    (sampleFieldsTable insWit envSampleFail 0 [[none]]).2 =
      some "sampleFieldsTable: boom" ∧
    (run insWit envSampleFail 2 2 true).rows =
      (run insWit (benignSampling envSampleFail) 2 2 true).rows := by
  have h := C2_sampling_error_contained insWit envSampleFail 0 0 "boom" (by decide)
    (fun i hi => absurd hi (by omega)) rfl
  exact ⟨h.1 [[none]], (h.2.2.2 2 2 true).1⟩




/-- Counterexample to C4 as stated: for the pair ("t", "") there is no
1-1 override entry and no random-1-N override entry, and the default
kind is the (recognised-by-configuration) "random-1-n", so the claim
requires the Random 1-N sampler; but a Go map read returns the zero
value `""` for the missing key, which compares equal to the empty
referenced-table name, so the code selects the Uniform 1-1 sampler. -/
theorem C4_empty_ref_cex :
    resolvedSamplerKind fklNoOverrides "t" "" = SamplerKind.uniform ∧
    specResolve fklNoOverrides "t" "" = SamplerKind.dbRandom ∧
    fklNoOverrides.OneToOne.lookup "t" = none := by
  refine ⟨by decide, by decide, by decide⟩

/-- C4 (amended): for every pair whose referenced table name is
non-empty, the sampler is resolved by the claimed precedence — explicit
1-1 override, then explicit random-1-N override, then the process-wide
default kind, with Random 1-N as the fallback for an unrecognised kind.
(For an empty referenced table name a missing override entry compares
equal to the Go zero value and wins instead.) -/
theorem C4_resolution_precedence (r : ForeignKeyLinks) (tableName refTableName : String)
    (h : refTableName ≠ "") :
    resolvedSamplerKind r tableName refTableName = specResolve r tableName refTableName := by
  have hone : (goMapGet r.OneToOne tableName = refTableName) ↔
      (r.OneToOne.lookup tableName = some refTableName) := by
    unfold goMapGet
    cases hl : r.OneToOne.lookup tableName with
    | none => simp [Ne.symm h]
    | some v => simp
  have hmany : (goMapGet r.DBRandomOneToMany tableName = refTableName) ↔
      (r.DBRandomOneToMany.lookup tableName = some refTableName) := by
    unfold goMapGet
    cases hl : r.DBRandomOneToMany.lookup tableName with
    | none => simp [Ne.symm h]
    | some v => simp
  unfold resolvedSamplerKind specResolve relationship
  by_cases h1 : goMapGet r.OneToOne tableName = refTableName
  · rw [if_pos h1, if_pos (hone.mp h1)]
    rfl
  · rw [if_neg h1, if_neg (fun hc => h1 (hone.mpr hc))]
    by_cases h2 : goMapGet r.DBRandomOneToMany tableName = refTableName
    · rw [if_pos h2, if_pos (hmany.mp h2)]
      rfl
    · rw [if_neg h2, if_neg (fun hc => h2 (hmany.mpr hc))]
      by_cases hd1 : r.DefaultRelationship = "1-1"
      · simp [hd1, createSamplerFromForeignkeyLinks, NewUniformSample]
      · by_cases hd2 : r.DefaultRelationship = "db-random-1-n"
        · simp [hd1, hd2, createSamplerFromForeignkeyLinks, NewDBRandomSample]
        · simp [hd1, hd2, createSamplerFromForeignkeyLinks, NewDBRandomSample]

theorem randomInt_value_bound (col : String) (m : Int) (nb : Bool) (seed : Nat) (v : Int)
    (hm : 0 ≤ m) (hv : (Getter.randomInt col m nb).intValue seed = some v) :
    0 ≤ v ∧ v ≤ m := by
  simp only [Getter.intValue] at hv
  by_cases hn : (nb && seed % 2 == 0) = true
  · simp [hn] at hv
  · simp [hn] at hv
    have h1 : 0 ≤ (seed : Int) % (m + 1) := Int.emod_nonneg _ (by omega)
    have h2 : (seed : Int) % (m + 1) < m + 1 := Int.emod_lt_of_pos _ (by omega)
    omega

theorem randomIntRange_value_bound (col : String) (lo hi : Int) (nb : Bool) (seed : Nat)
    (v : Int) (hr : lo ≤ hi)
    (hv : (Getter.randomIntRange col lo hi nb).intValue seed = some v) :
    lo ≤ v ∧ v ≤ hi := by
  simp only [Getter.intValue] at hv
  by_cases hn : (nb && seed % 2 == 0) = true
  · simp [hn] at hv
  · simp [hn] at hv
    have h1 : 0 ≤ (seed : Int) % (hi - lo + 1) := Int.emod_nonneg _ (by omega)
    have h2 : (seed : Int) % (hi - lo + 1) < hi - lo + 1 := Int.emod_lt_of_pos _ (by omega)
    omega

/-- C5: every non-null generated integer value respects the per-type
ceiling: tinyint/bit/bool columns draw from [0, 1]; smallint, mediumint,
int, integer and bigint columns draw from [0, typeMax] with the fixed
per-type ceilings recorded in `maxValues` (tinyint 0xF, smallint 0xFF,
mediumint 0x7FFFF, int/integer 0x7FFFFFFF, bigint — the fallback for a
type missing from the map — 0x7FFFFFFFFFFFFFFF). -/
theorem C5_integer_bounds (y : Int) (f : Field) (seed : Nat) (v : Int) :
    (f.DataType ∈ ["tinyint", "bit", "bool"] →
      genIntValue y f seed = some v → 0 ≤ v ∧ v ≤ 1) ∧
    (f.DataType = "smallint" → genIntValue y f seed = some v → 0 ≤ v ∧ v ≤ 0xFF) ∧
    (f.DataType = "mediumint" → genIntValue y f seed = some v → 0 ≤ v ∧ v ≤ 0x7FFFF) ∧
    ((f.DataType = "int" ∨ f.DataType = "integer") →
      genIntValue y f seed = some v → 0 ≤ v ∧ v ≤ 0x7FFFFFFF) ∧
    (f.DataType = "bigint" →
      genIntValue y f seed = some v → 0 ≤ v ∧ v ≤ 0x7FFFFFFFFFFFFFFF) ∧
    maxValues.lookup "tinyint" = some 0xF ∧
    maxValues.lookup "smallint" = some 0xFF ∧
    maxValues.lookup "mediumint" = some 0x7FFFF ∧
    maxValues.lookup "int" = some 0x7FFFFFFF ∧
    maxValues.lookup "integer" = some 0x7FFFFFFF ∧
    maxValues.lookup "bigint" = some 0x7FFFFFFFFFFFFFFF := by
  refine ⟨?_, ?_, ?_, ?_, ?_, by decide, by decide, by decide, by decide, by decide, by decide⟩
  · intro hd hv
    simp only [List.mem_cons, List.mem_singleton, List.not_mem_nil, or_false] at hd
    rcases hd with hd | hd | hd <;>
    · have hg : generateFieldValue y f =
          some (.randomIntRange f.ColumnName 0 1 f.IsNullable) := by
        simp [generateFieldValue, hd]
      have hv' : (Getter.randomIntRange f.ColumnName 0 1 f.IsNullable).intValue seed =
          some v := by simpa [genIntValue, hg] using hv
      exact randomIntRange_value_bound _ _ _ _ _ _ (by norm_num) hv'
  · intro hd hv
    have hg : generateFieldValue y f =
        some (.randomInt f.ColumnName 0xFF f.IsNullable) := by
      simp [generateFieldValue, hd]; decide
    have hv' : (Getter.randomInt f.ColumnName 0xFF f.IsNullable).intValue seed = some v := by
      simpa [genIntValue, hg] using hv
    exact randomInt_value_bound _ _ _ _ _ (by norm_num) hv'
  · intro hd hv
    have hg : generateFieldValue y f =
        some (.randomInt f.ColumnName 0x7FFFF f.IsNullable) := by
      simp [generateFieldValue, hd]; decide
    have hv' : (Getter.randomInt f.ColumnName 0x7FFFF f.IsNullable).intValue seed =
        some v := by simpa [genIntValue, hg] using hv
    exact randomInt_value_bound _ _ _ _ _ (by norm_num) hv'
  · intro hd hv
    rcases hd with hd | hd <;>
    · have hg : generateFieldValue y f =
          some (.randomInt f.ColumnName 0x7FFFFFFF f.IsNullable) := by
        simp [generateFieldValue, hd]; decide
      have hv' : (Getter.randomInt f.ColumnName 0x7FFFFFFF f.IsNullable).intValue seed =
          some v := by simpa [genIntValue, hg] using hv
      exact randomInt_value_bound _ _ _ _ _ (by norm_num) hv'
  · intro hd hv
    have hg : generateFieldValue y f =
        some (.randomInt f.ColumnName 0x7FFFFFFFFFFFFFFF f.IsNullable) := by
      simp [generateFieldValue, hd]; decide
    have hv' : (Getter.randomInt f.ColumnName 0x7FFFFFFFFFFFFFFF f.IsNullable).intValue
        seed = some v := by simpa [genIntValue, hg] using hv
    exact randomInt_value_bound _ _ _ _ _ (by norm_num) hv'

/-- Witness for C5 on a concrete smallint column and seed. -/
theorem C5_integer_bounds_witness :
    genIntValue 2026 ⟨"c", "smallint", false, 0, 0, 0, []⟩ 300 = some 44 ∧
    (0 ≤ (44 : Int) ∧ (44 : Int) ≤ 0xFF) := by
  have h := (C5_integer_bounds 2026 ⟨"c", "smallint", false, 0, 0, 0, []⟩ 300 44).2.1
    rfl (by decide)
  exact ⟨by decide, h⟩

theorem genQuery_no_sent (ins : InsertInst) (env : Env) (k : Nat) (count : Int)
    (c : Nat) (n : Int) : Event.sent c n ∉ (genQuery ins env k count).2 := by
  by_cases h : count < 1
  · simp [genQuery, h]
  · cases hc : (chunkBuild ins env k count).2 <;> simp [genQuery, h, hc]

theorem insert_no_sent (ins : InsertInst) (env : Env) (k : Nat) (count : Int) (dry : Bool)
    (c : Nat) (n : Int) : Event.sent c n ∉ (insert ins env k count dry).events := by
  by_cases h : count < 1
  · simp [insert, h]
  · cases dry
    · cases henv : env.execRes k <;>
        simp [insert, h, henv, genQuery_no_sent ins env k count c n]
    · cases henv : env.writeErr k <;>
        simp [insert, h, henv, genQuery_no_sent ins env k count c n]

theorem notify_no_sent (ins : InsertInst) (env : Env) (k : Nat) (m : Int) (c : Nat) (n : Int)
    (h : env.ready k = false) : Event.sent c n ∉ notify ins env k m := by
  cases hch : ins.notifyChan <;> simp [notify, h, hch]

theorem closeEvents_no_sent (ins : InsertInst) (c : Nat) (n : Int) :
    Event.sent c n ∉ closeEvents ins := by
  cases hch : ins.notifyChan <;> simp [closeEvents, hch]

theorem runFullLoop_no_sent (ins : InsertInst) (env : Env) (dry : Bool) (bulksize : Int)
    (h : ∀ j, env.ready j = false) :
    ∀ fuel k0 c n, Event.sent c n ∉ (runFullLoop ins env dry bulksize fuel k0).events := by
  intro fuel
  induction fuel with
  | zero => intro k0 c n; simp [runFullLoop]
  | succ m ih =>
    intro k0 c n
    cases henv : (insert ins env k0 bulksize dry).err with
    | some e => simp [runFullLoop, henv, insert_no_sent ins env k0 bulksize dry c n]
    | none =>
      simp [runFullLoop, henv, insert_no_sent ins env k0 bulksize dry c n,
        notify_no_sent ins env k0 _ c n (h k0), ih (k0 + 1) c n]

theorem run_events_suffix (ins : InsertInst) (env : Env) (count bulksize : Int) (dry : Bool) :
    ∃ l, (run ins env count bulksize dry).events = l ++ closeEvents ins := by
  cases henv : (runFullLoop ins env dry bulksize (Int.tdiv count bulksize).toNat 0).err with
  | some e =>
    refine ⟨(runFullLoop ins env dry bulksize (Int.tdiv count bulksize).toNat 0).events, ?_⟩
    simp [run, henv]
  | none =>
    refine ⟨(runFullLoop ins env dry bulksize (Int.tdiv count bulksize).toNat 0).events ++
      ((insert ins env (Int.tdiv count bulksize).toNat
          (count - Int.tdiv count bulksize * bulksize) dry).events ++
        notify ins env (Int.tdiv count bulksize).toNat
          (insert ins env (Int.tdiv count bulksize).toNat
            (count - Int.tdiv count bulksize * bulksize) dry).rows), ?_⟩
    simp [run, henv]

/-- C6: the notify-channel protocol.  (a) Requesting the notify channel
closes any previously requested channel and hands out a fresh one;
(b) a run entered with a requested channel closes it on completion,
regardless of success or failure; (c) notifications are fire-and-forget:
the rows, error and statements of a run do not depend on receiver
readiness, and a notification is sent only when a receiver is ready —
with no receiver ever ready nothing is sent (the notification is
dropped), yet the run is unaffected. -/
theorem C6_notify_protocol (ins : InsertInst) (env : Env) (count bulksize : Int)
    (dry : Bool) (c : Nat) (hc : ins.notifyChan = some c) :
    (∀ nextId, (NotifyChan ins nextId).1.notifyChan = some nextId ∧
      (NotifyChan ins nextId).2.2.2 = [.chanClosed c, .chanCreated nextId]) ∧
    Event.chanClosed c ∈ (run ins env count bulksize dry).events ∧
    (∀ r' : Nat → Bool,
      (run ins { env with ready := r' } count bulksize dry).rows =
        (run ins env count bulksize dry).rows ∧
      (run ins { env with ready := r' } count bulksize dry).err =
        (run ins env count bulksize dry).err ∧
      (run ins { env with ready := r' } count bulksize dry).stmts =
        (run ins env count bulksize dry).stmts) ∧
    ((∀ j, env.ready j = false) →
      ∀ c' n, Event.sent c' n ∉ (run ins env count bulksize dry).events) := by
  refine ⟨?_, ?_, ?_, ?_⟩
  · intro nextId
    simp [NotifyChan, hc]
  · obtain ⟨l, hl⟩ := run_events_suffix ins env count bulksize dry
    rw [hl]
    simp [closeEvents, hc]
  · intro r'
    exact run_core_congr ins { env with ready := r' } env rfl rfl count bulksize dry
  · intro h c' n
    cases henv : (runFullLoop ins env dry bulksize (Int.tdiv count bulksize).toNat 0).err with
    | some e =>
      simp [run, henv, runFullLoop_no_sent ins env dry bulksize h _ 0 c' n,
        closeEvents_no_sent ins c' n]
    | none =>
      simp [run, henv, runFullLoop_no_sent ins env dry bulksize h _ 0 c' n,
        closeEvents_no_sent ins c' n, insert_no_sent ins env _ _ dry c' n,
        notify_no_sent ins env _ _ c' n (h _)]


/-- Witness for C6 on a concrete run with a requested channel. -/
theorem C6_notify_protocol_witness :
    (NotifyChan insWitChan 1).2.2.2 = [.chanClosed 0, .chanCreated 1] ∧
    Event.chanClosed 0 ∈ (run insWitChan envWit 3 2 true).events ∧
    (∀ c' n, Event.sent c' n ∉ (run insWitChan envWit 3 2 true).events) := by
  have h := C6_notify_protocol insWitChan envWit 3 2 true 0 rfl
  exact ⟨(h.1 1).2, h.2.1, h.2.2.2 (fun _ => rfl)⟩


theorem renderRowsAux_all_some :
    ∀ (rs : List String) (i total : Nat), i + rs.length = total →
      renderRowsAux total (rs.map some) i = joinComma rs := by
  intro rs
  induction rs with
  | nil => intro i total _; rfl
  | cons s rest ih =>
    intro i total h
    cases rest with
    | nil =>
      have hi : ¬i ≠ total - 1 := by simp at h; omega
      simp only [List.map_cons, List.map_nil, renderRowsAux, if_neg hi, joinComma]
      simp
    | cons r rest' =>
      have hi : i ≠ total - 1 := by simp at h; omega
      have hrec := ih (i + 1) total (by simp at h ⊢; omega)
      simp only [List.map_cons, renderRowsAux, if_pos hi] at hrec ⊢
      rw [hrec]
      simp [joinComma, String.append_assoc]

theorem sampleWriteRows_length (env : Env) (k j colIdx len : Nat) :
    ∀ (rows : List (List (Option Getter))) (i : Nat),
      (sampleWriteRows env k j colIdx len rows i).length = rows.length := by
  intro rows
  induction rows with
  | nil => intro i; rfl
  | cons r rs ih => intro i; simp [sampleWriteRows, ih (i + 1)]

theorem sampleGo_length (ins : InsertInst) (env : Env) (k : Nat) :
    ∀ (cs : List Constraint) (j colIdx : Nat) (values : List (List (Option Getter))),
      ((sampleGo ins env k cs j colIdx values).1).length = values.length := by
  intro cs
  induction cs with
  | nil => intro j colIdx values; rfl
  | cons c cs' ih =>
    intro j colIdx values
    cases herr : env.sampleErr k j with
    | some e => simp [sampleGo, herr]
    | none =>
      simp [sampleGo, herr, ih (j + 1) (colIdx + c.ReferencedFields.length),
        sampleWriteRows_length env k j colIdx c.ReferencedFields.length values 0]

theorem chunkBuild_length (ins : InsertInst) (env : Env) (k : Nat) (count : Int) :
    (chunkBuild ins env k count).1.length = count.toNat := by
  unfold chunkBuild sampledRegion sampleFieldsTable
  by_cases h : ins.table.fieldsToSample.length ≠ 0
  · simp [h, sampleGo_length, initialRegion]
  · simp [h, initialRegion]

/-- C7: for every chunk of `count ≥ 1` rows, the rendered statement is
the header followed by the chunk's rows, rendered in allocation order
and joined with exactly one separating comma between consecutive rows
and none after the last; the rendering loop skips a row whose value
slice is nil (in a built chunk every row is non-nil, so none are
skipped). -/
theorem C7_render_rows (ins : InsertInst) (env : Env) (k : Nat) (count : Int)
    (hc : 1 ≤ count) :
    (genQuery ins env k count).1 =
      some (env.insertHeader ++
        joinComma ((chunkBuild ins env k count).1.map env.rowString)) ∧
    (chunkBuild ins env k count).1.length = count.toNat ∧
    (∀ (total : Nat) (vs : List (Option String)) (i : Nat),
      renderRowsAux total (none :: vs) i = renderRowsAux total vs (i + 1)) := by
  refine ⟨?_, chunkBuild_length ins env k count, fun total vs i => rfl⟩
  have h : ¬count < 1 := by omega
  have hmap : (((chunkBuild ins env k count).1.map some).map (Option.map env.rowString)) =
      ((chunkBuild ins env k count).1.map env.rowString).map some := by
    rw [List.map_map, List.map_map]
    rfl
  simp only [genQuery, if_neg h, renderRows]
  rw [hmap]
  rw [renderRowsAux_all_some _ 0 _ (by simp)]

/-- Witness for C7 on a concrete two-row chunk. -/
theorem C7_render_rows_witness :
    (genQuery insWit envWit 0 2).1 =
      some (envWit.insertHeader ++
        joinComma ((chunkBuild insWit envWit 0 2).1.map envWit.rowString)) ∧
    (chunkBuild insWit envWit 0 2).1.length = 2 := by
  have h := C7_render_rows insWit envWit 0 2 (by decide)
  exact ⟨h.1, h.2.1⟩

theorem genQuery_no_exec (ins : InsertInst) (env : Env) (k : Nat) (count : Int)
    (q : String) : Event.exec q ∉ (genQuery ins env k count).2 := by
  by_cases h : count < 1
  · simp [genQuery, h]
  · cases hc : (chunkBuild ins env k count).2 <;> simp [genQuery, h, hc]

/-- C8: a chunk of `count ≥ 1` rows executed in dry-run mode writes the
statement's text followed by a terminating newline to the output sink,
performs no database execution, and reports exactly the requested
`count` rows. -/
theorem C8_dryrun_write (ins : InsertInst) (env : Env) (k : Nat) (count : Int)
    (hc : 1 ≤ count) (hw : env.writeErr k = none) :
    (insert ins env k count true).rows = count ∧
    (insert ins env k count true).err = none ∧
    (∃ s, (genQuery ins env k count).1 = some s ∧
      Event.write (s ++ "\n") ∈ (insert ins env k count true).events) ∧
    (∀ q, Event.exec q ∉ (insert ins env k count true).events) := by
  have h : ¬count < 1 := by omega
  refine ⟨insert_rows_dry ins env k count h hw, by simp [insert, h, hw], ?_, ?_⟩
  · refine ⟨(genQuery ins env k count).1.getD "", by simp [genQuery, h], ?_⟩
    simp [insert, h, hw]
  · intro q
    simp [insert, h, hw, genQuery_no_exec ins env k count q]

/-- Witness for C8 on a concrete three-row dry-run chunk. -/
theorem C8_dryrun_write_witness :
    (insert insWit envWit 0 3 true).rows = 3 ∧
    (∀ q, Event.exec q ∉ (insert insWit envWit 0 3 true).events) := by
  have h := C8_dryrun_write insWit envWit 0 3 (by decide) rfl
  exact ⟨h.1, h.2.2.2⟩




theorem subViewStart_add_len_le :
    ∀ (cs : List Constraint) (i j : Nat), i < j → j ≤ cs.length →
      subViewStart cs i + subViewLen cs i ≤ subViewStart cs j := by
  intro cs
  induction cs with
  | nil => intro i j hij hj; simp at hj; omega
  | cons c cs' ih =>
    intro i j hij hj
    cases i with
    | zero =>
      match j, hij with
      | p + 1, _ =>
        simp only [subViewStart, subViewLen, List.getD]
        simp
    | succ q =>
      match j, hij with
      | p + 1, _ =>
        have hrec := ih q p (by omega) (by simpa using hj)
        simp only [subViewStart]
        have hl : subViewLen (c :: cs') (q + 1) = subViewLen cs' q := rfl
        rw [hl]
        omega

theorem writeCells_get (vals : Nat → Getter) (start len : Nat) :
    ∀ (row : List (Option Getter)) (j p : Nat),
      (writeCells vals start len row j)[p]? =
        (row[p]?).map (fun c =>
          if start ≤ j + p ∧ j + p < start + len then some (vals (j + p - start)) else c) := by
  intro row
  induction row with
  | nil => intro j p; simp [writeCells]
  | cons c cs ih =>
    intro j p
    cases p with
    | zero => simp [writeCells]
    | succ q =>
      simp only [writeCells, List.getElem?_cons_succ]
      rw [ih (j + 1) q]
      congr 1
      funext c'
      have he : j + (q + 1) = j + 1 + q := by omega
      rw [he]

theorem writeRange_outside (vals : Nat → Getter) (start len : Nat)
    (row : List (Option Getter)) (idx : Nat) (h : idx < start ∨ start + len ≤ idx) :
    (writeRange vals start len row)[idx]? = row[idx]? := by
  cases hrow : row[idx]? with
  | none => rw [writeRange, writeCells_get, hrow]; rfl
  | some v =>
    rw [writeRange, writeCells_get, hrow]
    have hcond : ¬(start ≤ idx ∧ idx < start + len) := by omega
    simp [hcond]

theorem sampleWriteRows_untouched (env : Env) (k j c0 len : Nat) (idx : Nat)
    (hidx : idx < c0 ∨ c0 + len ≤ idx) :
    ∀ (rows : List (List (Option Getter))) (i0 i : Nat),
      cellAt (sampleWriteRows env k j c0 len rows i0) i idx = cellAt rows i idx := by
  intro rows
  induction rows with
  | nil => intro i0 i; rfl
  | cons r rs ih =>
    intro i0 i
    cases i with
    | zero =>
      simp only [sampleWriteRows, cellAt, List.getElem?_cons_zero]
      simp [writeRange_outside (env.sampleVal k j i0) c0 len r idx hidx]
    | succ p =>
      simp only [sampleWriteRows, cellAt, List.getElem?_cons_succ]
      exact ih (i0 + 1) p

theorem sampleGo_untouched (ins : InsertInst) (env : Env) (k : Nat) :
    ∀ (cs : List Constraint) (j0 c0 : Nat) (values : List (List (Option Getter)))
      (i idx : Nat),
      (∀ j, j < cs.length →
        ¬(c0 + subViewStart cs j ≤ idx ∧
          idx < c0 + subViewStart cs j + subViewLen cs j)) →
      cellAt (sampleGo ins env k cs j0 c0 values).1 i idx = cellAt values i idx := by
  intro cs
  induction cs with
  | nil => intro j0 c0 values i idx _; rfl
  | cons c cs' ih =>
    intro j0 c0 values i idx hout
    cases herr : env.sampleErr k j0 with
    | some e => simp [sampleGo, herr]
    | none =>
      have h0 := hout 0 (by simp)
      have hw : idx < c0 ∨ c0 + c.ReferencedFields.length ≤ idx := by
        simp only [subViewStart, subViewLen, List.getD] at h0
        simp at h0
        omega
      have hrest := ih (j0 + 1) (c0 + c.ReferencedFields.length)
        (sampleWriteRows env k j0 c0 c.ReferencedFields.length values 0) i idx
        (fun j hj => by
          have h := hout (j + 1) (by simpa using hj)
          have hs : subViewStart (c :: cs') (j + 1) =
              c.ReferencedFields.length + subViewStart cs' j := rfl
          have hl : subViewLen (c :: cs') (j + 1) = subViewLen cs' j := rfl
          rw [hs, hl] at h
          intro hcon
          exact h (by omega))
      simp only [sampleGo, herr]
      rw [hrest]
      exact sampleWriteRows_untouched env k j0 c0 c.ReferencedFields.length idx hw values 0 i

theorem genRow_length (ins : InsertInst) (env : Env) :
    (genRow ins env).length = ins.table.fieldsToGen.length := by
  unfold genRow
  by_cases h : ins.table.fieldsToGen.length ≠ 0 <;> simp [h, generateFieldsRow]

/-- C9: the two concurrent writers address disjoint cells.  (1) The
sub-views of two distinct constraints occupy disjoint column intervals
of the sample region — each constraint's interval starts at the running
offset and advances by its referenced-field count; (2) every row of a
built chunk is the generate-column prefix (one cell per generate-column)
followed by the sample region, so generation writes only the prefix;
(3) a sub-view write of width `len` at offset `start` leaves every
column outside `[start, start+len)` unchanged; (4) the whole sampling
phase leaves every column outside its constraints' intervals
unchanged. -/
theorem C9_disjoint_writes :
    (∀ (cs : List Constraint) (i j x : Nat), i < j → j ≤ cs.length →
      ¬((subViewStart cs i ≤ x ∧ x < subViewStart cs i + subViewLen cs i) ∧
        (subViewStart cs j ≤ x ∧ x < subViewStart cs j + subViewLen cs j))) ∧
    (∀ (ins : InsertInst) (env : Env) (k : Nat) (count : Int)
      (r : List (Option Getter)), r ∈ (chunkBuild ins env k count).1 →
      ∃ t, r = genRow ins env ++ t ∧
        (genRow ins env).length = ins.table.fieldsToGen.length) ∧
    (∀ (vals : Nat → Getter) (start len : Nat) (row : List (Option Getter)) (idx : Nat),
      idx < start ∨ start + len ≤ idx →
      (writeRange vals start len row)[idx]? = row[idx]?) ∧
    (∀ (ins : InsertInst) (env : Env) (k : Nat) (cs : List Constraint)
      (j0 c0 : Nat) (values : List (List (Option Getter))) (i idx : Nat),
      (∀ j, j < cs.length →
        ¬(c0 + subViewStart cs j ≤ idx ∧
          idx < c0 + subViewStart cs j + subViewLen cs j)) →
      cellAt (sampleGo ins env k cs j0 c0 values).1 i idx = cellAt values i idx) := by
  refine ⟨?_, ?_, ?_, ?_⟩
  · intro cs i j x hij hj hcon
    have := subViewStart_add_len_le cs i j hij hj
    omega
  · intro ins env k count r hr
    unfold chunkBuild at hr
    obtain ⟨t, _, ht⟩ := List.mem_map.mp hr
    exact ⟨t, ht.symm, genRow_length ins env⟩
  · exact writeRange_outside
  · exact sampleGo_untouched


/-- Witness for C9: with constraints of widths 2 and 1, column 1 lies in
the first sub-view `[0, 2)` and not in the second `[2, 3)`. -/
theorem C9_disjoint_writes_witness :
    ¬((subViewStart csWit 0 ≤ 1 ∧ 1 < subViewStart csWit 0 + subViewLen csWit 0) ∧
      (subViewStart csWit 1 ≤ 1 ∧ 1 < subViewStart csWit 1 + subViewLen csWit 1)) :=
  C9_disjoint_writes.1 csWit 0 1 1 (by decide) (by decide)

theorem mem_supported_of_mem_sub {d : String} {sub : List String} (hd : d ∈ sub)
    (hsub : ∀ x ∈ sub, x ∈ supportedTypes) : d ∈ supportedTypes :=
  hsub d hd

theorem generateFieldValue_none_of_unsupported (y : Int) (f : Field)
    (hns : f.DataType ∉ supportedTypes) : generateFieldValue y f = none := by
  have n1 : f.DataType ∉ ["tinyint", "bit", "bool", "boolean"] :=
    fun hc => hns (mem_supported_of_mem_sub hc (by decide))
  have n2 : f.DataType ∉ ["smallint", "mediumint", "int", "integer", "bigint"] :=
    fun hc => hns (mem_supported_of_mem_sub hc (by decide))
  have n3 : f.DataType ∉ ["float", "decimal", "double", "numeric"] :=
    fun hc => hns (mem_supported_of_mem_sub hc (by decide))
  have n4 : f.DataType ∉ ["char", "varchar"] :=
    fun hc => hns (mem_supported_of_mem_sub hc (by decide))
  have n5 : f.DataType ∉ ["date"] :=
    fun hc => hns (mem_supported_of_mem_sub hc (by decide))
  have n6 : f.DataType ∉ ["datetime", "timestamp"] :=
    fun hc => hns (mem_supported_of_mem_sub hc (by decide))
  have n7 : f.DataType ∉ ["tinyblob", "tinytext", "blob", "text", "mediumtext",
      "mediumblob", "longblob", "longtext"] :=
    fun hc => hns (mem_supported_of_mem_sub hc (by decide))
  have n8 : f.DataType ∉ ["time"] :=
    fun hc => hns (mem_supported_of_mem_sub hc (by decide))
  have n9 : f.DataType ∉ ["year"] :=
    fun hc => hns (mem_supported_of_mem_sub hc (by decide))
  have n10 : f.DataType ∉ ["enum", "set"] :=
    fun hc => hns (mem_supported_of_mem_sub hc (by decide))
  have n11 : f.DataType ∉ ["binary", "varbinary"] :=
    fun hc => hns (mem_supported_of_mem_sub hc (by decide))
  rw [generateFieldValue, if_neg n1, if_neg n2, if_neg n3, if_neg n4, if_neg n5, if_neg n6,
    if_neg n7, if_neg n8, if_neg n9, if_neg n10, if_neg n11]

set_option maxHeartbeats 1000000 in
theorem generateFieldValue_isSome_of_supported (y : Int) (f : Field)
    (hs : f.DataType ∈ supportedTypes) : (generateFieldValue y f).isSome = true := by
  simp only [supportedTypes, List.mem_cons, List.not_mem_nil, or_false] at hs
  rcases hs with h | h | h | h | h | h | h | h | h | h | h | h | h | h | h | h | h | h | h |
    h | h | h | h | h | h | h | h | h | h | h | h | h <;>
    simp [generateFieldValue, h]

/-- C10: a column whose data type is unrecognised yields no value (the
condition is only logged), every other column of the row is still
generated independently, and the run proceeds without error; the chunk
plan's division is the only partial operation and is well defined under
the precondition `bulksize ≥ 1`. -/
theorem C10_unsupported_type :
    (∀ (y : Int) (f : Field), f.DataType ∉ supportedTypes → generateFieldValue y f = none) ∧
    (∀ (y : Int) (f : Field), f.DataType ∈ supportedTypes →
      (generateFieldValue y f).isSome = true) ∧
    (∀ (y : Int) (fields : List Field) (i : Nat),
      (generateFieldsRow y fields)[i]? = (fields[i]?).map (generateFieldValue y)) ∧
    (∀ (ins : InsertInst) (env : Env) (count bulksize : Int) (dry : Bool),
      1 ≤ bulksize → (∀ k, stmtOk env dry k) →
      (run ins env count bulksize dry).err = none) ∧
    (∀ count bulksize : Int, 1 ≤ bulksize → 0 ≤ count →
      Int.tdiv count bulksize * bulksize +
        (count - Int.tdiv count bulksize * bulksize) = count ∧
      0 ≤ count - Int.tdiv count bulksize * bulksize ∧
      count - Int.tdiv count bulksize * bulksize < bulksize) := by
  refine ⟨?_, ?_, ?_, ?_, ?_⟩
  · exact generateFieldValue_none_of_unsupported
  · exact generateFieldValue_isSome_of_supported
  · intro y fields i
    simp [generateFieldsRow]
  · intro ins env count bulksize dry hb hok
    exact (run_ok ins env count bulksize dry hb hok).1
  · intro count bulksize hb hc
    have h := rem_bounds count bulksize hc hb
    exact ⟨by ring, h.1, h.2⟩

/-- Witness for C10: a "geometry" column yields no value, a run over the
test table returns no error, and the plan division at 11/4 leaves a
remainder in range. -/
theorem C10_unsupported_type_witness :
    generateFieldValue 2026 ⟨"g", "geometry", false, 0, 0, 0, []⟩ = none ∧
    (run insWit envWit 5 2 false).err = none ∧
    (0 : Int) ≤ 11 - Int.tdiv 11 4 * 4 ∧ 11 - Int.tdiv 11 4 * 4 < 4 := by
  have h := C10_unsupported_type
  exact ⟨h.1 2026 _ (by decide),
    h.2.2.2.1 insWit envWit 5 2 false (by decide) (fun k => ⟨4, rfl⟩),
    (h.2.2.2.2 11 4 (by decide) (by decide)).2.1,
    (h.2.2.2.2 11 4 (by decide) (by decide)).2.2⟩

/-- Witness for C4 (amended) at a concrete pair with a 1-1 override. -/
theorem C4_resolution_precedence_witness :
    resolvedSamplerKind ⟨"random-1-n", [], [("citizens", "ssns")]⟩ "citizens" "ssns" =
      specResolve ⟨"random-1-n", [], [("citizens", "ssns")]⟩ "citizens" "ssns" :=
  C4_resolution_precedence ⟨"random-1-n", [], [("citizens", "ssns")]⟩ "citizens" "ssns"
    (by decide)

end RDL
